import Mathlib

/-!
Verification of the mind-brawl signal/game core against its specification.

The Python core is shallowly embedded: each relevant source function is
translated into an executable Lean definition over `ℚ` (Python floats are
modelled as exact rationals; all verified properties are order/arithmetic
facts insensitive to rounding).  External library routines
(`scipy.signal.welch`, the numeric filter-coefficient design of
`scipy.signal.butter`/`iirnotch`, the `lfilter_zi` edge initial conditions,
and the random number generator) are modelled by their output values, which
enter the definitions as explicit parameters.
-/

set_option maxRecDepth 10000

namespace MindBrawl

/-! ### src/config.py -/

def BUFFER_SECONDS : ℕ := 5

def UPDATE_INTERVAL_MS : ℕ := 250

def SAMPLING_RATE : ℕ := 256

def GAME_DURATION_S : ℚ := 10

def MAX_SHOTS : ℕ := 10

def EEG_CHANNELS : List String := ["TP9", "AF7", "AF8", "TP10"]

/-! ### src/data_stream.py — ring buffers

`collections.deque(maxlen := N)` is modelled as a list holding the buffered
samples oldest-first; an `append` drops the front element when the deque is
full. -/

/-- One `deque.append` on a buffer of capacity `N`. -/
def dequePush (N : ℕ) (buf : List α) (x : α) : List α :=
  if N < (buf ++ [x]).length then (buf ++ [x]).drop ((buf ++ [x]).length - N)
  else buf ++ [x]

/-- A whole stream of samples pushed in order (the producer loop of
`stream_loop` repeatedly appending to one channel's buffer). -/
def dequePushAll (N : ℕ) (buf : List α) (xs : List α) : List α :=
  xs.foldl (dequePush N) buf

/-- The 2000-sample scenario stream: timestamps `0, 1/256, 2/256, …`. -/
def scenarioStream : List ℚ :=
  (List.range 2000).map (fun (k : ℕ) => (k : ℚ) / 256)

/-! ### src/signal_processing.py — filter pipeline

`apply_filters` chains `scipy.signal.filtfilt` calls.  Each call is embedded
faithfully at the level relevant to the verified properties: the zero-phase
scheme (odd-reflection padding of length `3 * max(len a, len b)`, a forward
IIR difference-equation pass, a backward pass over the reversal, then slicing
the padding back off) and its failure condition (`scipy` raises when the
window is not longer than the padding, modelled as `none`).  The numeric
filter coefficients produced by `butter`/`iirnotch` are external library
outputs and enter as parameters; the `lfilter_zi` edge initial state is taken
as zero, which changes sample values only, never lengths or totality. -/

/-- Truncating dot product of a coefficient list with a history list. -/
def dotT : List ℚ → List ℚ → ℚ
  | [], _ => 0
  | _ :: _, [] => 0
  | c :: cs, v :: vs => c * v + dotT cs vs

/-- The IIR difference equation
`y[n] = (Σ b[i]·x[n-i] - Σ_{j≥1} a[j]·y[n-j]) / a[0]`, carrying the input and
output histories (most recent first). -/
def lfilterGo (b ar : List ℚ) (a0 : ℚ) : List ℚ → List ℚ → List ℚ → List ℚ
  | [], _, _ => []
  | x :: rest, xh, yh =>
    (dotT b (x :: xh) - dotT ar yh) / a0 ::
      lfilterGo b ar a0 rest (x :: xh) ((dotT b (x :: xh) - dotT ar yh) / a0 :: yh)

/-- Model of `scipy.signal.lfilter` on a whole window. -/
def lfilter (b a x : List ℚ) : List ℚ :=
  lfilterGo b a.tail (a.headD 1) x [] []

/-- Odd reflection of `n` samples on both ends of the window
(`scipy`'s default `padtype='odd'`). -/
def odd_ext (x : List ℚ) (n : ℕ) : List ℚ :=
  ((List.range n).map (fun i => 2 * x.headD 0 - x.getD (n - i) 0)) ++ x ++
    ((List.range n).map (fun i => 2 * x.getLastD 0 - x.getD (x.length - 2 - i) 0))

/-- Model of `scipy.signal.filtfilt` (default `method='pad'`): fails when the window is
not longer than the pad length, otherwise pads, filters forward, filters the
reversal backward, and slices the padding off. -/
def filtfilt (b a x : List ℚ) : Option (List ℚ) :=
  if x.length ≤ 3 * max b.length a.length then none
  else
    some ((((lfilter b a
        ((lfilter b a (odd_ext x (3 * max b.length a.length))).reverse)).reverse).drop
          (3 * max b.length a.length)).take x.length)

/-- Numerator/denominator coefficient pair of one designed filter stage. -/
structure FilterCoeffs where
  b : List ℚ
  a : List ℚ

/-- The coefficient sets that `iirnotch` / `butter` design for the six
selectable stages of `apply_filters`. -/
structure CoeffEnv where
  notch : FilterCoeffs
  highpass : FilterCoeffs
  lowpass : FilterCoeffs
  theta : FilterCoeffs
  alpha : FilterCoeffs
  beta : FilterCoeffs

/-- Model of `apply_filters(data, fs, selected_filters)`: the selected stages run in
the source's fixed order (notch, highpass, lowpass, theta, alpha, beta), each
fully reprocessing the previous stage's output; a stage failure aborts the
pipeline. -/
def apply_filters (env : CoeffEnv) (data : List ℚ) (selected : List String) :
    Option (List ℚ) :=
  (if "notch" ∈ selected then filtfilt env.notch.b env.notch.a data
   else some data).bind fun d1 =>
  (if "highpass" ∈ selected then filtfilt env.highpass.b env.highpass.a d1
   else some d1).bind fun d2 =>
  (if "lowpass" ∈ selected then filtfilt env.lowpass.b env.lowpass.a d2
   else some d2).bind fun d3 =>
  (if "theta" ∈ selected then filtfilt env.theta.b env.theta.a d3
   else some d3).bind fun d4 =>
  (if "alpha" ∈ selected then filtfilt env.alpha.b env.alpha.a d4
   else some d4).bind fun d5 =>
  (if "beta" ∈ selected then filtfilt env.beta.b env.beta.a d5
   else some d5)

/-- The guarded filtering step of `update_eeg_graph` (src/callbacks.py lines
40–41): filter only when the window has more than 10 samples and at least one
stage is selected, otherwise pass the window through untouched. -/
def filterStep (env : CoeffEnv) (y : List ℚ) (selected : List String) :
    Option (List ℚ) :=
  if 10 < y.length ∧ selected ≠ [] then apply_filters env y selected
  else some y

/-! ### src/signal_processing.py — band powers

`compute_band_powers` integrates the `scipy.signal.welch` power spectral
density over each named band with `np.trapz`.  `welch` itself is an external
routine; its output arrays `(freqs, psd)` enter as parameters. -/

/-- Model of `np.trapz` over paired `(frequency, psd)` samples:
`Σ (f[i+1]-f[i])·(p[i]+p[i+1])/2`. -/
def trapzP : List (ℚ × ℚ) → ℚ
  | [] => 0
  | [_] => 0
  | u :: v :: rest => (v.1 - u.1) * (u.2 + v.2) / 2 + trapzP (v :: rest)

/-- The fixed band table of `compute_band_powers`. -/
def band_ranges : List (String × ℚ × ℚ) :=
  [("Theta", 4, 8), ("Alpha", 8, 13), ("Beta", 13, 30)]

/-- Model of `compute_band_powers(signal, fs)` after the `welch` call: for each band,
mask the PSD to the band's frequency sub-range and integrate. -/
def compute_band_powers (freqs psd : List ℚ) : List (String × ℚ) :=
  band_ranges.map (fun br =>
    (br.1, trapzP ((freqs.zip psd).filter
      (fun fp => decide (br.2.1 ≤ fp.1 ∧ fp.1 ≤ br.2.2)))))

/-! ### src/signal_processing.py — blink detector -/

/-- Model of `np.max` over a window (the windows inspected are non-empty). -/
def npMax (l : List ℚ) : ℚ := l.foldl max (l.headD 0)

/-- Model of `np.min` over a window. -/
def npMin (l : List ℚ) : ℚ := l.foldl min (l.headD 0)

def frontal_channels : List String := ["AF7", "AF8"]

/-- One channel's spike test inside `detect_blink`: skip channels with fewer
than 50 buffered samples; otherwise look at the last `int(0.2*fs)` samples
(`= ⌊2·fs/10⌋`, exact for the configured `fs = 256`) and compare the
max-min swing against the amplitude threshold. -/
def channelSpikes (fs : ℕ) (threshold : ℚ) (data : List ℚ) : Bool :=
  if data.length < 50 then false
  else
    decide (0 < (data.drop (data.length - 2 * fs / 10)).length ∧
      threshold < npMax (data.drop (data.length - 2 * fs / 10)) -
        npMin (data.drop (data.length - 2 * fs / 10)))

/-- Model of `detect_blink(eeg_buffer, fs, threshold, cooldown, last_blink_time)` with
`now` the value of `time.time()` at the call: inside the refractory window
return `(False, last_blink_time)` immediately; otherwise scan the two frontal
channels (first tripping channel short-circuits) and report `(True, now)` on
a spike, else `(False, last_blink_time)`. -/
def detect_blink (eeg : String → List ℚ) (fs : ℕ)
    (threshold cooldown last_blink_time now : ℚ) : Bool × ℚ :=
  if now - last_blink_time < cooldown then (false, last_blink_time)
  else if frontal_channels.any (fun ch => channelSpikes fs threshold (eeg ch))
    then (true, now)
  else (false, last_blink_time)

/-! ### cartPoleGymnasium.py — steering map of the main loop -/

def STEER_THRESHOLD : ℚ := 30

/-- One tick of the gyro-to-steer mapping (cartPoleGymnasium.py lines 50–55). -/
def steerMap (gyro_x prev_steer : ℚ) : ℚ :=
  if gyro_x < -STEER_THRESHOLD then 1
  else if STEER_THRESHOLD < gyro_x then -1
  else prev_steer * (999 / 1000)

/-- The steer outputs of consecutive loop iterations for the given gyro-x
readings.  `prev_steer` is initialised once, before the loop (0.0 at line
33), and the loop body never reassigns it, so every iteration reads the same
value `p` — the computed steer is NOT threaded back into the next tick. -/
def steerTrace (p : ℚ) (inputs : List ℚ) : List ℚ :=
  inputs.map (fun g => steerMap g p)

/-! ### src/callbacks.py — `update_zen_archer`, the game tick -/

/-- The mutable game dictionary: `score`, `target_pos`, `last_blink_time`,
`shot_timer`, `shot_number`, `crosshair_pos`. -/
structure GameState where
  score : ℕ
  target_pos : ℚ × ℚ
  last_blink_time : ℚ
  shot_timer : ℚ
  shot_number : ℕ
  crosshair_pos : ℚ × ℚ
  deriving DecidableEq

/-- The reset state built when the start button is clicked (`now` is the
`time.time()` of the click). -/
def initGameState (now : ℚ) : GameState :=
  ⟨0, (175, 175), now, GAME_DURATION_S, 0, (235, 235)⟩

/-- The status a tick surfaces to the presentation layer: the game-over
report carrying the final score, one of the two "waiting for data" statuses,
or a normal playing update. -/
inductive TickStatus where
  | gameOver (finalScore : ℕ)
  | waitingEEG
  | waitingGyro
  | playing
  deriving DecidableEq

/-- Everything one tick reads from outside the game state: the wall clock,
the EEG channel buffers, the `welch` PSD arrays per channel, the gyroscope
Y/Z axis buffers, the two uniform random draws (scaled by the shake
magnitude), and the randomly chosen next target position. -/
structure TickEnv where
  now : ℚ
  eeg : String → List ℚ
  welch : String → List ℚ × List ℚ
  gyroY : List ℚ
  gyroZ : List ℚ
  randX : ℚ
  randY : ℚ
  newTarget : ℚ × ℚ

/-- What a tick returns: the surfaced status, the (possibly updated) game
state, and the clipped crosshair position rendered by the crosshair style
(`none` when the tick exits before rendering). -/
structure TickOutput where
  status : TickStatus
  state : GameState
  render : Option (ℚ × ℚ)
  deriving DecidableEq

/-- Model of `np.clip` on one scalar. -/
def qclip (x lo hi : ℚ) : ℚ := min (max x lo) hi

/-- Clipping the crosshair into the 470×470 arena. -/
def clip470 (p : ℚ × ℚ) : ℚ × ℚ := (qclip p.1 0 470, qclip p.2 0 470)

/-- Squared Euclidean distance. -/
def distSq (p q : ℚ × ℚ) : ℚ := (p.1 - q.1) ^ 2 + (p.2 - q.2) ^ 2

/-- The target's center: its stored top-left position plus 75 on each axis. -/
def targetCenter (gs : GameState) : ℚ × ℚ :=
  (gs.target_pos.1 + 75, gs.target_pos.2 + 75)

/-- The concentric-ring scores, phrased on the squared distance: the source
compares `sqrt(dx²+dy²)` against the radii 25/50/75, which for these
non-negative radii is equivalent to comparing `dx²+dy²` against their
squares. -/
def ringPoints (dSq : ℚ) : ℕ :=
  if dSq ≤ 25 ^ 2 then 100
  else if dSq ≤ 50 ^ 2 then 50
  else if dSq ≤ 75 ^ 2 then 20
  else 0

def focus_channels : List String := ["AF7", "AF8"]

/-- The focus-metric accumulation loop (src/callbacks.py lines 163–171):
summed alpha power, summed beta power, and the number of focus channels that
had more than `2*SAMPLING_RATE` buffered samples. -/
def focusStats (env : TickEnv) : ℚ × ℚ × ℕ :=
  focus_channels.foldl (fun acc ch =>
    if 2 * SAMPLING_RATE < (env.eeg ch).length then
      match (compute_band_powers (env.welch ch).1 (env.welch ch).2).lookup "Alpha",
            (compute_band_powers (env.welch ch).1 (env.welch ch).2).lookup "Beta" with
      | some al, some be => (acc.1 + al, acc.2.1 + be, acc.2.2 + 1)
      | _, _ => acc
    else acc) (0, 0, 0)

/-- The focus metric `(beta_power/n) / (alpha_power/n + 1e-10)`. -/
def focusMetricOf (st : ℚ × ℚ × ℕ) : ℚ :=
  (st.2.1 / (st.2.2 : ℚ)) / (st.1 / (st.2.2 : ℚ) + 1 / 10 ^ 10)

/-- The shake magnitude `np.clip(8 / (focus_metric + 1e-10), 1, 25)`. -/
def shakeMagnitude (env : TickEnv) : ℚ :=
  qclip (8 / (focusMetricOf (focusStats env) + 1 / 10 ^ 10)) 1 25

/-- The raw crosshair position: screen center plus gyro times sensitivity 5
plus the uniform jitter draw `uniform(-shake, shake)`, modelled as
`rand * shake` with `rand` the tick's random parameter (a real run keeps it
in `[-1, 1]`; no verified property depends on that bound). -/
def rawPos (env : TickEnv) (gy gz : ℚ) : ℚ × ℚ :=
  (235 + gz * 5 + env.randX * shakeMagnitude env,
   235 + gy * 5 + env.randY * shakeMagnitude env)

/-- The exponential-moving-average smoothing with `smoothing_factor = 0.4`:
`smoothed = 0.4·raw + (1-0.4)·previous`. -/
def smoothPos (env : TickEnv) (gs : GameState) (gy gz : ℚ) : ℚ × ℚ :=
  (2 / 5 * (rawPos env gy gz).1 + (1 - 2 / 5) * gs.crosshair_pos.1,
   2 / 5 * (rawPos env gy gz).2 + (1 - 2 / 5) * gs.crosshair_pos.2)

/-- The per-tick timer decrement `UPDATE_INTERVAL_MS / 1000`. -/
def TICK_DT : ℚ := (UPDATE_INTERVAL_MS : ℚ) / 1000

/-- The tick's `detect_blink` call (default threshold 65 and cooldown 0.75,
the stored `last_blink_time`, and `time.time()` as `now`). -/
def blinkOf (env : TickEnv) (gs : GameState) : Bool × ℚ :=
  detect_blink env.eeg SAMPLING_RATE 65 (3 / 4) gs.last_blink_time env.now

/-- The game state after the unconditional start-of-tick mutations: the timer
decrement of line 156 and the `last_blink_time` update of line 159. -/
def tickedState (env : TickEnv) (gs : GameState) : GameState :=
  ⟨gs.score, gs.target_pos, (blinkOf env gs).2, gs.shot_timer - TICK_DT,
    gs.shot_number, gs.crosshair_pos⟩

/-- One game tick of `update_zen_archer` on an initialised game state (the
game tab is active and the start button is not being clicked): the game-over
freeze, the timer decrement, blink detection, the focus-metric availability
check, the gyroscope availability check (`IndexError` on an empty axis
buffer is the waiting branch), crosshair smoothing and clipping, and the
shot/scoring logic. -/
def tick (env : TickEnv) (gs : GameState) : TickOutput :=
  if MAX_SHOTS ≤ gs.shot_number then ⟨.gameOver gs.score, gs, none⟩
  else if (focusStats env).2.2 = 0 then ⟨.waitingEEG, tickedState env gs, none⟩
  else
    match env.gyroY.getLast?, env.gyroZ.getLast? with
    | some gy, some gzRaw =>
      if (blinkOf env gs).1 = true ∨ gs.shot_timer - TICK_DT ≤ 0 then
        ⟨.playing,
          ⟨gs.score +
              (if (blinkOf env gs).1 = true then
                ringPoints (distSq (clip470 (smoothPos env gs gy (-gzRaw)))
                  (targetCenter gs))
              else 0),
            env.newTarget, (blinkOf env gs).2, GAME_DURATION_S,
            gs.shot_number + 1, smoothPos env gs gy (-gzRaw)⟩,
          some (clip470 (smoothPos env gs gy (-gzRaw)))⟩
      else
        ⟨.playing,
          ⟨gs.score, gs.target_pos, (blinkOf env gs).2, gs.shot_timer - TICK_DT,
            gs.shot_number, smoothPos env gs gy (-gzRaw)⟩,
          some (clip470 (smoothPos env gs gy (-gzRaw)))⟩
    | _, _ => ⟨.waitingGyro, tickedState env gs, none⟩

/-- A run of game ticks threading the game state. -/
def runTicks (envs : List TickEnv) (gs : GameState) : GameState :=
  envs.foldl (fun s e => (tick e s).state) gs

/-! ### Concrete inputs used by witnesses and counterexamples -/

/-- A degenerate single-stage coefficient pair (identity-length design). -/
def coeffW : FilterCoeffs := ⟨[1], [1]⟩

def coeffEnvW : CoeffEnv := ⟨coeffW, coeffW, coeffW, coeffW, coeffW, coeffW⟩

/-- Fifty flat samples followed by a 100-unit spike: trips the 65-unit blink
threshold. -/
def spikeBuf : List ℚ := List.replicate 50 0 ++ [100]

/-- EEG buffers with a spike on AF7 only. -/
def eegSpike : String → List ℚ := fun ch => if ch = "AF7" then spikeBuf else []

/-- A tick environment with no EEG and no gyro data at all. -/
def envEmpty : TickEnv := ⟨0, fun _ => [], fun _ => ([], []), [], [], 0, 0, (0, 0)⟩

/-- The game state right after a reset at time 0. -/
def gs0 : GameState := initGameState 0

/-- A finished game state (all ten shots taken). -/
def gsDone : GameState := ⟨370, (175, 175), 0, GAME_DURATION_S, MAX_SHOTS, (235, 235)⟩

/-- Flat `welch` output arrays covering the three bands. -/
def welchFlat : String → List ℚ × List ℚ := fun _ => ([4, 8, 13, 30], [1, 1, 1, 1])

/-- An AF7 buffer long enough for band power (513 > 2·256 samples) whose last
window carries a blink spike. -/
def eegBig : String → List ℚ :=
  fun ch => if ch = "AF7" then List.replicate 462 0 ++ spikeBuf else []

/-- An AF7 buffer long enough for band power with no spike anywhere. -/
def eegCalm : String → List ℚ := fun ch => if ch = "AF7" then List.replicate 513 0 else []

/-- A playing-tick environment in which a blink fires. -/
def envBlink : TickEnv := ⟨1, eegBig, welchFlat, [0], [0], 0, 0, (100, 100)⟩

/-- A playing-tick environment with a hard-right gyro reading that pushes the
smoothed crosshair far past the arena bound. -/
def envFar : TickEnv := ⟨1, eegCalm, welchFlat, [0], [-200], 0, 0, (100, 100)⟩

/-! ## Theorems -/

/-! ### Ring buffer (C3) -/

theorem dequePush_length_le (N : ℕ) (buf : List α) (x : α)
    (h : buf.length ≤ N) : (dequePush N buf x).length ≤ N := by
  unfold dequePush
  split
  · simp only [List.length_drop]
    omega
  · simp only [List.length_append, List.length_cons, List.length_nil] at *
    omega

theorem dequePushAll_eq (N : ℕ) :
    ∀ (xs buf : List α), buf.length ≤ N →
      dequePushAll N buf xs = (buf ++ xs).drop (buf.length + xs.length - N) := by
  intro xs
  induction xs with
  | nil =>
    intro buf h
    simp [dequePushAll, Nat.sub_eq_zero_of_le h]
  | cons x rest ih =>
    intro buf h
    show dequePushAll N (dequePush N buf x) rest = _
    by_cases hfull : buf.length + 1 ≤ N
    · have hpush : dequePush N buf x = buf ++ [x] := by
        unfold dequePush
        rw [if_neg]
        simp only [List.length_append, List.length_cons, List.length_nil]
        omega
      rw [hpush, ih (buf ++ [x]) (by simp; omega)]
      simp only [List.length_append, List.length_cons, List.length_nil,
        List.append_assoc, List.singleton_append]
      congr 1
      omega
    · have hlen : buf.length = N := by omega
      have hpush : dequePush N buf x = (buf ++ [x]).drop 1 := by
        unfold dequePush
        rw [if_pos]
        · congr 1
          simp only [List.length_append, List.length_cons, List.length_nil]
          omega
        · simp only [List.length_append, List.length_cons, List.length_nil]
          omega
      have hplen : ((buf ++ [x]).drop 1).length ≤ N := by
        simp only [List.length_drop, List.length_append, List.length_cons,
          List.length_nil]
        omega
      have key : (buf ++ [x]).drop 1 ++ rest = (buf ++ x :: rest).drop 1 := by
        have h3 : buf ++ x :: rest = (buf ++ [x]) ++ rest := by simp
        rw [h3]
        exact (List.drop_append_of_le_length (by simp)).symm
      rw [hpush, ih _ hplen, key, List.drop_drop]
      congr 1
      simp only [List.length_drop, List.length_append, List.length_cons,
        List.length_nil]
      omega

/-- The buffered contents after pushing `xs` into an initially empty
capacity-`N` buffer: exactly the `N` most recent samples, in push order. -/
theorem dequePushAll_nil (N : ℕ) (xs : List α) :
    dequePushAll N [] xs = xs.drop (xs.length - N) := by
  have := dequePushAll_eq N xs [] (by simp)
  simpa using this

/-- C3: For every channel buffer of capacity N and every sequence of pushes,
the buffer retains exactly the N most recently pushed samples in their
original push order (FIFO eviction); pushing 2000 samples with timestamps
`k/256` into the 1280-capacity (5 s × 256 Hz) EEG buffer leaves a snapshot of
length exactly 1280 whose oldest timestamp is `(2000-1280)/256`. -/
theorem ringBuffer_fifo :
    (∀ (N : ℕ) (xs : List ℚ),
        dequePushAll N [] xs = xs.drop (xs.length - N) ∧
        (dequePushAll N [] xs).length = min N xs.length) ∧
    (dequePushAll (BUFFER_SECONDS * SAMPLING_RATE) [] scenarioStream).length
        = 1280 ∧
    (dequePushAll (BUFFER_SECONDS * SAMPLING_RATE) [] scenarioStream).head?
        = some (((2000 - 1280 : ℚ)) / 256) := by
  have hgen : ∀ (N : ℕ) (xs : List ℚ),
      dequePushAll N [] xs = xs.drop (xs.length - N) ∧
      (dequePushAll N [] xs).length = min N xs.length := by
    intro N xs
    refine ⟨dequePushAll_nil N xs, ?_⟩
    rw [dequePushAll_nil N xs]
    simp only [List.length_drop]
    omega
  have hlen : scenarioStream.length = 2000 := by
    unfold scenarioStream
    rw [List.length_map, List.length_range]
  have hcap : BUFFER_SECONDS * SAMPLING_RATE = 1280 := by
    norm_num [BUFFER_SECONDS, SAMPLING_RATE]
  refine ⟨hgen, ?_, ?_⟩
  · rw [(hgen _ _).2, hlen, hcap]
    norm_num
  · rw [dequePushAll_nil, hlen, hcap]
    show (scenarioStream.drop 720).head? = _
    rw [List.head?_drop]
    unfold scenarioStream
    rw [List.getElem?_map, List.getElem?_range (by norm_num)]
    norm_num

/-! ### Filter pipeline lengths and totality (C8, C6) -/

theorem lfilterGo_length (b ar : List ℚ) (a0 : ℚ) :
    ∀ (xs xh yh : List ℚ), (lfilterGo b ar a0 xs xh yh).length = xs.length := by
  intro xs
  induction xs with
  | nil => intro xh yh; rfl
  | cons x rest ih =>
    intro xh yh
    show _ + 1 = _ + 1
    rw [ih]

theorem lfilter_length (b a x : List ℚ) : (lfilter b a x).length = x.length :=
  lfilterGo_length b a.tail (a.headD 1) x [] []

theorem odd_ext_length (x : List ℚ) (n : ℕ) :
    (odd_ext x n).length = n + x.length + n := by
  simp [odd_ext]
  omega

theorem filtfilt_length (b a x y : List ℚ) (h : filtfilt b a x = some y) :
    y.length = x.length := by
  unfold filtfilt at h
  split at h
  · exact absurd h (by simp)
  · have := (Option.some.injEq _ _).mp h.symm
    subst this
    simp only [List.length_take, List.length_drop, List.length_reverse,
      lfilter_length, odd_ext_length]
    omega

theorem filterStage_length (c : FilterCoeffs) (s : Prop) [Decidable s]
    (d out : List ℚ) (h : (if s then filtfilt c.b c.a d else some d) = some out) :
    out.length = d.length := by
  split at h
  · exact filtfilt_length _ _ _ _ h
  · rw [(Option.some.injEq _ _).mp h]

/-- C8: whenever the filter pipeline succeeds, the output window has exactly
the length of the input window, for every coefficient design and every
selection of stages. -/
theorem apply_filters_length (env : CoeffEnv) (data : List ℚ)
    (selected : List String) (out : List ℚ)
    (h : apply_filters env data selected = some out) :
    out.length = data.length := by
  unfold apply_filters at h
  rcases Option.bind_eq_some.mp h with ⟨d1, h1, h⟩
  rcases Option.bind_eq_some.mp h with ⟨d2, h2, h⟩
  rcases Option.bind_eq_some.mp h with ⟨d3, h3, h⟩
  rcases Option.bind_eq_some.mp h with ⟨d4, h4, h⟩
  rcases Option.bind_eq_some.mp h with ⟨d5, h5, h⟩
  calc out.length = d5.length := filterStage_length _ _ _ _ h
    _ = d4.length := filterStage_length _ _ _ _ h5
    _ = d3.length := filterStage_length _ _ _ _ h4
    _ = d2.length := filterStage_length _ _ _ _ h3
    _ = d1.length := filterStage_length _ _ _ _ h2
    _ = data.length := filterStage_length _ _ _ _ h1

/-- Evaluation of the pipeline on a concrete window (identity-length
coefficients, lowpass stage selected). -/
theorem apply_filters_concrete :
    apply_filters coeffEnvW [0, 0, 0, 0] ["lowpass"] = some [0, 0, 0, 0] := by
  norm_num [apply_filters, coeffEnvW, coeffW, filtfilt, odd_ext, lfilter,
    lfilterGo, dotT, List.range_succ]

theorem apply_filters_length_witness :
    apply_filters coeffEnvW [0, 0, 0, 0] ["lowpass"] = some [0, 0, 0, 0] ∧
    ([0, 0, 0, 0] : List ℚ).length = ([0, 0, 0, 0] : List ℚ).length :=
  ⟨apply_filters_concrete,
   apply_filters_length coeffEnvW [0, 0, 0, 0] ["lowpass"] [0, 0, 0, 0]
     apply_filters_concrete⟩

/-- C6: a window shorter than the minimum filterable length (at most 10
samples) is passed through unfiltered by the filtering step, for every
selected filter specification — the step is total there and returns the
window unchanged. -/
theorem filterStep_short_passthrough (env : CoeffEnv) (y : List ℚ)
    (selected : List String) (h : y.length ≤ 10) :
    filterStep env y selected = some y := by
  unfold filterStep
  rw [if_neg]
  intro hc
  omega

theorem filterStep_short_passthrough_witness :
    ([0, 0, 0] : List ℚ).length ≤ 10 ∧
    filterStep coeffEnvW [0, 0, 0] ["highpass", "lowpass"] = some [0, 0, 0] :=
  ⟨by simp,
   filterStep_short_passthrough coeffEnvW [0, 0, 0] ["highpass", "lowpass"]
     (by simp)⟩

/-! ### Band powers (C9) -/

theorem trapzP_nonneg (l : List (ℚ × ℚ))
    (hord : l.Pairwise (fun u v => u.1 ≤ v.1)) (hnn : ∀ p ∈ l, 0 ≤ p.2) :
    0 ≤ trapzP l := by
  induction l with
  | nil => simp [trapzP]
  | cons a t ih =>
    cases t with
    | nil => simp [trapzP]
    | cons v rest =>
      show 0 ≤ (v.1 - a.1) * (a.2 + v.2) / 2 + trapzP (v :: rest)
      have hav : a.1 ≤ v.1 := (List.pairwise_cons.mp hord).1 v (by simp)
      have ha2 : 0 ≤ a.2 := hnn a (by simp)
      have hv2 : 0 ≤ v.2 := hnn v (by simp)
      have ht : 0 ≤ trapzP (v :: rest) :=
        ih (List.pairwise_cons.mp hord).2 (fun p hp => hnn p (by simp [hp]))
      have : 0 ≤ (v.1 - a.1) * (a.2 + v.2) / 2 :=
        div_nonneg (mul_nonneg (by linarith) (by linarith)) (by norm_num)
      linarith

theorem pairwise_fst_zip :
    ∀ (fs ps : List ℚ), fs.Pairwise (· ≤ ·) →
      (fs.zip ps).Pairwise (fun u v : ℚ × ℚ => u.1 ≤ v.1) := by
  intro fs
  induction fs with
  | nil => intro ps _; simp
  | cons f ft ih =>
    intro ps hp
    cases ps with
    | nil => simp
    | cons p pt =>
      rw [List.zip_cons_cons]
      refine List.Pairwise.cons ?_ (ih pt (List.pairwise_cons.mp hp).2)
      intro q hq
      rcases q with ⟨qf, qp⟩
      exact (List.pairwise_cons.mp hp).1 qf (List.of_mem_zip hq).1

/-- C9: every band power computed by the band power estimator is
non-negative, for every window and sampling rate — i.e. for every `welch`
output with its guaranteed shape (a non-decreasing frequency grid and a
pointwise non-negative power spectral density). -/
theorem band_powers_nonneg (freqs psd : List ℚ)
    (hf : freqs.Pairwise (· ≤ ·)) (hp : ∀ v ∈ psd, 0 ≤ v) :
    ∀ pr ∈ compute_band_powers freqs psd, 0 ≤ pr.2 := by
  intro pr hpr
  unfold compute_band_powers at hpr
  rcases List.mem_map.mp hpr with ⟨br, _, rfl⟩
  refine trapzP_nonneg _ ?_ ?_
  · exact (pairwise_fst_zip freqs psd hf).sublist (List.filter_sublist _)
  · intro p hpmem
    exact hp p.2 (List.of_mem_zip (List.mem_of_mem_filter hpmem)).2

theorem band_powers_nonneg_witness :
    List.Pairwise (· ≤ ·) ([4, 8, 13, 30] : List ℚ) ∧
    (∀ v ∈ ([1, 1, 1, 1] : List ℚ), 0 ≤ v) ∧
    ∀ pr ∈ compute_band_powers [4, 8, 13, 30] [1, 1, 1, 1], 0 ≤ pr.2 :=
  ⟨by decide, by decide,
   band_powers_nonneg [4, 8, 13, 30] [1, 1, 1, 1] (by decide) (by decide)⟩

/-! ### Blink detector (C4) -/

theorem foldl_max_zero_spike :
    ∀ (n : ℕ) (a : ℚ), 0 ≤ a → a ≤ 100 →
      List.foldl max a (List.replicate n 0 ++ [100]) = 100 := by
  intro n
  induction n with
  | zero =>
    intro a _ h
    simp [max_eq_right h]
  | succ m ih =>
    intro a h0 h100
    rw [List.replicate_succ, List.cons_append, List.foldl_cons,
      max_eq_left h0]
    exact ih a h0 h100

theorem foldl_min_nonneg_zero :
    ∀ (l : List ℚ), (∀ v ∈ l, 0 ≤ v) → List.foldl min (0 : ℚ) l = 0 := by
  intro l
  induction l with
  | nil => intro _; rfl
  | cons v t ih =>
    intro h
    rw [List.foldl_cons, min_eq_left (h v (by simp))]
    exact ih (fun w hw => h w (by simp [hw]))

theorem spikeBuf_max : npMax spikeBuf = 100 := by
  have h0 : spikeBuf.headD 0 = 0 := by
    unfold spikeBuf
    rw [List.replicate_succ]
    rfl
  unfold npMax
  rw [h0]
  exact foldl_max_zero_spike 50 0 le_rfl (by norm_num)

theorem spikeBuf_min : npMin spikeBuf = 0 := by
  have h0 : spikeBuf.headD 0 = 0 := by
    unfold spikeBuf
    rw [List.replicate_succ]
    rfl
  unfold npMin
  rw [h0]
  refine foldl_min_nonneg_zero _ ?_
  intro v hv
  unfold spikeBuf at hv
  rcases List.mem_append.mp hv with h | h
  · rw [List.eq_of_mem_replicate h]
  · rw [List.mem_singleton.mp h]
    norm_num

theorem spikeBuf_spikes : channelSpikes SAMPLING_RATE 65 spikeBuf = true := by
  have hlen : spikeBuf.length = 51 := by simp [spikeBuf]
  unfold channelSpikes
  rw [if_neg (by omega)]
  have hdrop : spikeBuf.drop (spikeBuf.length - 2 * SAMPLING_RATE / 10) = spikeBuf := by
    rw [hlen]
    norm_num [SAMPLING_RATE]
  rw [hdrop, spikeBuf_max, spikeBuf_min, decide_eq_true_eq]
  constructor
  · rw [hlen]; norm_num
  · norm_num

theorem eegSpike_any :
    frontal_channels.any (fun ch => channelSpikes SAMPLING_RATE 65 (eegSpike ch))
      = true := by
  unfold frontal_channels
  rw [List.any_cons]
  have : eegSpike "AF7" = spikeBuf := rfl
  rw [this, spikeBuf_spikes]
  rfl

/-- C4: inside the refractory window the blink detector returns
`(false, last_blink_time)` without inspecting any channel (the result is
independent of the buffer contents); a spiking buffer fires exactly once per
cooldown window — a first call past the cooldown fires and returns the call
time, a second call within the cooldown of that firing does not fire and
keeps the stored time, and a third call past the cooldown fires again with
its own call time. -/
theorem detect_blink_refractory (eeg eeg2 : String → List ℚ) (fs : ℕ)
    (threshold cooldown last now now1 now2 : ℚ) :
    (now - last < cooldown →
      detect_blink eeg fs threshold cooldown last now = (false, last) ∧
      detect_blink eeg fs threshold cooldown last now =
        detect_blink eeg2 fs threshold cooldown last now) ∧
    (frontal_channels.any (fun ch => channelSpikes fs threshold (eeg ch)) = true →
      cooldown ≤ now - last → now1 - now < cooldown → cooldown ≤ now2 - now →
      detect_blink eeg fs threshold cooldown last now = (true, now) ∧
      detect_blink eeg fs threshold cooldown now now1 = (false, now) ∧
      detect_blink eeg fs threshold cooldown now now2 = (true, now2)) := by
  constructor
  · intro h
    constructor
    · unfold detect_blink
      rw [if_pos h]
    · unfold detect_blink
      rw [if_pos h, if_pos h]
  · intro hspike h0 h1 h2
    refine ⟨?_, ?_, ?_⟩
    · unfold detect_blink
      rw [if_neg (not_lt.mpr h0), if_pos hspike]
    · unfold detect_blink
      rw [if_pos h1]
    · unfold detect_blink
      rw [if_neg (not_lt.mpr h2), if_pos hspike]

theorem detect_blink_refractory_witness :
    ((3 : ℚ) / 4 ≤ 1 - 0 ∧ (3 : ℚ) / 2 - 1 < 3 / 4 ∧ (3 : ℚ) / 4 ≤ 9 / 5 - 1) ∧
    detect_blink eegSpike SAMPLING_RATE 65 (3 / 4) 0 1 = (true, 1) ∧
    detect_blink eegSpike SAMPLING_RATE 65 (3 / 4) 1 (3 / 2) = (false, 1) ∧
    detect_blink eegSpike SAMPLING_RATE 65 (3 / 4) 1 (9 / 5) = (true, 9 / 5) :=
  ⟨⟨by norm_num, by norm_num, by norm_num⟩,
   (detect_blink_refractory eegSpike eegSpike SAMPLING_RATE 65 (3 / 4) 0 1
       (3 / 2) (9 / 5)).2
     eegSpike_any (by norm_num) (by norm_num) (by norm_num)⟩

/-! ### Vehicle steering map (C7) -/

/-- C7 fails on the code: five −40°/s ticks do emit steer +1 each, but the
following 0°/s tick emits 0, not the claimed 0.999.  The decay branch reads
`prev_steer`, which the loop never reassigns after its one initialisation to
0.0, so the branch always computes `0.0 * 0.999 = 0.0` — the decayed value
of the previous tick's steer is never produced. -/
theorem steerLoop_failing_input :
    steerTrace 0 [-40, -40, -40, -40, -40, 0] = [1, 1, 1, 1, 1, 0] ∧
    ¬ steerTrace 0 [-40, -40, -40, -40, -40, 0]
        = [1, 1, 1, 1, 1, 999 / 1000] := by
  have h : steerTrace 0 [-40, -40, -40, -40, -40, 0] = [1, 1, 1, 1, 1, 0] := by
    norm_num [steerTrace, steerMap, STEER_THRESHOLD]
  refine ⟨h, ?_⟩
  rw [h]
  intro hc
  norm_num at hc

/-! ### Game tick branch characterisations -/

theorem tick_gameOver (env : TickEnv) (gs : GameState)
    (h : MAX_SHOTS ≤ gs.shot_number) :
    tick env gs = ⟨.gameOver gs.score, gs, none⟩ := by
  unfold tick
  rw [if_pos h]

theorem tick_waitingEEG_eq (env : TickEnv) (gs : GameState)
    (h1 : ¬ MAX_SHOTS ≤ gs.shot_number) (h2 : (focusStats env).2.2 = 0) :
    tick env gs = ⟨.waitingEEG, tickedState env gs, none⟩ := by
  unfold tick
  rw [if_neg h1, if_pos h2]

theorem tick_gyroNone (env : TickEnv) (gs : GameState)
    (h1 : ¬ MAX_SHOTS ≤ gs.shot_number) (h2 : ¬ (focusStats env).2.2 = 0)
    (h3 : env.gyroY.getLast? = none ∨ env.gyroZ.getLast? = none) :
    tick env gs = ⟨.waitingGyro, tickedState env gs, none⟩ := by
  unfold tick
  rw [if_neg h1, if_neg h2]
  rcases h3 with h3 | h3
  · rw [h3]
  · rw [h3]
    cases env.gyroY.getLast? <;> rfl

theorem tick_playing_eq (env : TickEnv) (gs : GameState) (gy gz : ℚ)
    (h1 : ¬ MAX_SHOTS ≤ gs.shot_number) (h2 : ¬ (focusStats env).2.2 = 0)
    (hgy : env.gyroY.getLast? = some gy) (hgz : env.gyroZ.getLast? = some gz) :
    tick env gs =
      if (blinkOf env gs).1 = true ∨ gs.shot_timer - TICK_DT ≤ 0 then
        ⟨.playing,
          ⟨gs.score +
              (if (blinkOf env gs).1 = true then
                ringPoints (distSq (clip470 (smoothPos env gs gy (-gz)))
                  (targetCenter gs))
              else 0),
            env.newTarget, (blinkOf env gs).2, GAME_DURATION_S,
            gs.shot_number + 1, smoothPos env gs gy (-gz)⟩,
          some (clip470 (smoothPos env gs gy (-gz)))⟩
      else
        ⟨.playing,
          ⟨gs.score, gs.target_pos, (blinkOf env gs).2, gs.shot_timer - TICK_DT,
            gs.shot_number, smoothPos env gs gy (-gz)⟩,
          some (clip470 (smoothPos env gs gy (-gz)))⟩ := by
  unfold tick
  rw [if_neg h1, if_neg h2, hgy, hgz]

/-- Case split on everything a tick can do to `shot_number`. -/
theorem tick_shot_number_step (env : TickEnv) (gs : GameState) :
    (tick env gs).state.shot_number = gs.shot_number ∨
    ((tick env gs).state.shot_number = gs.shot_number + 1 ∧
      gs.shot_number < MAX_SHOTS) := by
  by_cases hover : MAX_SHOTS ≤ gs.shot_number
  · rw [tick_gameOver env gs hover]
    left; rfl
  · by_cases hfoc : (focusStats env).2.2 = 0
    · rw [tick_waitingEEG_eq env gs hover hfoc]
      left; rfl
    · cases hgy : env.gyroY.getLast? with
      | none =>
        rw [tick_gyroNone env gs hover hfoc (Or.inl hgy)]
        left; rfl
      | some gy =>
        cases hgz : env.gyroZ.getLast? with
        | none =>
          rw [tick_gyroNone env gs hover hfoc (Or.inr hgz)]
          left; rfl
        | some gz =>
          rw [tick_playing_eq env gs gy gz hover hfoc hgy hgz]
          by_cases hfired : (blinkOf env gs).1 = true ∨ gs.shot_timer - TICK_DT ≤ 0
          · rw [if_pos hfired]
            right
            exact ⟨rfl, by omega⟩
          · rw [if_neg hfired]
            left; rfl

/-! ### Evaluations at the concrete tick environments -/

theorem focusStats_envEmpty : focusStats envEmpty = (0, 0, 0) := rfl

theorem focus_envBlink_ne : ¬ (focusStats envBlink).2.2 = 0 := by decide

theorem focus_envFar_ne : ¬ (focusStats envFar).2.2 = 0 := by decide

theorem channelSpikes_eegBig : channelSpikes SAMPLING_RATE 65 (eegBig "AF7") = true := by
  have hlen : (eegBig "AF7").length = 513 := by
    show (List.replicate 462 (0 : ℚ) ++ spikeBuf).length = 513
    simp [spikeBuf]
  unfold channelSpikes
  rw [if_neg (by omega), hlen]
  have hidx : 513 - 2 * SAMPLING_RATE / 10 = 462 := by norm_num [SAMPLING_RATE]
  rw [hidx]
  have hdrop : (eegBig "AF7").drop 462 = spikeBuf := by
    show (List.replicate 462 (0 : ℚ) ++ spikeBuf).drop 462 = spikeBuf
    rw [List.drop_append_eq_append_drop, List.drop_replicate]
    simp
  rw [hdrop, spikeBuf_max, spikeBuf_min, decide_eq_true_eq]
  refine ⟨?_, by norm_num⟩
  simp [spikeBuf]

theorem blink_envBlink : blinkOf envBlink gs0 = (true, 1) := by
  unfold blinkOf detect_blink
  have hcool : ¬ (envBlink.now - gs0.last_blink_time < 3 / 4) := by
    show ¬ ((1 : ℚ) - 0 < 3 / 4)
    norm_num
  have hany : frontal_channels.any
      (fun ch => channelSpikes SAMPLING_RATE 65 (envBlink.eeg ch)) = true := by
    unfold frontal_channels
    rw [List.any_cons]
    have he : envBlink.eeg = eegBig := rfl
    rw [he, channelSpikes_eegBig]
    rfl
  rw [if_neg hcool, if_pos hany]
  rfl

theorem foldl_max_zero_rep :
    ∀ (n : ℕ), List.foldl max (0 : ℚ) (List.replicate n 0) = 0 := by
  intro n
  induction n with
  | zero => rfl
  | succ m ih =>
    rw [List.replicate_succ, List.foldl_cons, max_self]
    exact ih

theorem foldl_min_zero_rep :
    ∀ (n : ℕ), List.foldl min (0 : ℚ) (List.replicate n 0) = 0 := by
  intro n
  induction n with
  | zero => rfl
  | succ m ih =>
    rw [List.replicate_succ, List.foldl_cons, min_self]
    exact ih

theorem channelSpikes_eegCalm : channelSpikes SAMPLING_RATE 65 (eegCalm "AF7") = false := by
  have hlen : (eegCalm "AF7").length = 513 := by
    show (List.replicate 513 (0 : ℚ)).length = 513
    simp
  unfold channelSpikes
  rw [if_neg (by omega), hlen]
  have hidx : 513 - 2 * SAMPLING_RATE / 10 = 462 := by norm_num [SAMPLING_RATE]
  rw [hidx]
  have hdrop : (eegCalm "AF7").drop 462 = List.replicate 51 (0 : ℚ) := by
    show (List.replicate 513 (0 : ℚ)).drop 462 = List.replicate 51 (0 : ℚ)
    rw [List.drop_replicate]
  rw [hdrop]
  have hh : (List.replicate 51 (0 : ℚ)).headD 0 = 0 := by
    rw [List.replicate_succ]
    rfl
  have hmax : npMax (List.replicate 51 (0 : ℚ)) = 0 := by
    unfold npMax
    rw [hh]
    exact foldl_max_zero_rep 51
  have hmin : npMin (List.replicate 51 (0 : ℚ)) = 0 := by
    unfold npMin
    rw [hh]
    exact foldl_min_zero_rep 51
  rw [hmax, hmin]
  simp only [decide_eq_false_iff_not]
  intro hc
  have := hc.2
  norm_num at this

theorem blink_envFar : blinkOf envFar gs0 = (false, 0) := by
  unfold blinkOf detect_blink
  have hcool : ¬ (envFar.now - gs0.last_blink_time < 3 / 4) := by
    show ¬ ((1 : ℚ) - 0 < 3 / 4)
    norm_num
  have hany : frontal_channels.any
      (fun ch => channelSpikes SAMPLING_RATE 65 (envFar.eeg ch)) = false := by
    unfold frontal_channels
    rw [List.any_cons, List.any_cons]
    have he : envFar.eeg = eegCalm := rfl
    rw [he, channelSpikes_eegCalm]
    rfl
  rw [if_neg hcool, hany, if_neg (by simp)]
  rfl

/-! ### Waiting ticks (C1) -/

/-- C1 counterexample: on a tick whose EEG inputs are unavailable the status
is "waiting", yet `shot_timer` HAS been mutated — the decrement of line 156
runs before the waiting check, so the claim's list of unchanged fields is
wrong about `shot_timer`. -/
theorem waiting_tick_mutates_timer :
    (tick envEmpty gs0).status = .waitingEEG ∧
    ¬ (tick envEmpty gs0).state.shot_timer = gs0.shot_timer := by
  rw [tick_waitingEEG_eq envEmpty gs0 (by decide) rfl]
  refine ⟨rfl, ?_⟩
  show ¬ gs0.shot_timer - TICK_DT = gs0.shot_timer
  show ¬ (10 : ℚ) - (250 : ℚ) / 1000 = 10
  norm_num

/-- C1 (amended): a tick in which the required inputs are unavailable (no
focus channel has enough buffered samples, or no gyroscope sample yet) emits
a waiting status, renders nothing, and leaves `score`, `shot_number`,
`crosshair_pos` and `target_pos` unchanged; however `shot_timer` is always
decremented by the tick interval first, and `last_blink_time` is always
replaced by the blink detector's returned timestamp. -/
theorem waiting_tick_no_mutation (env : TickEnv) (gs : GameState)
    (h : (tick env gs).status = .waitingEEG ∨
      (tick env gs).status = .waitingGyro) :
    (tick env gs).state.score = gs.score ∧
    (tick env gs).state.shot_number = gs.shot_number ∧
    (tick env gs).state.crosshair_pos = gs.crosshair_pos ∧
    (tick env gs).state.target_pos = gs.target_pos ∧
    (tick env gs).state.shot_timer = gs.shot_timer - TICK_DT ∧
    (tick env gs).state.last_blink_time = (blinkOf env gs).2 ∧
    (tick env gs).render = none := by
  by_cases hover : MAX_SHOTS ≤ gs.shot_number
  · rw [tick_gameOver env gs hover] at h
    rcases h with h | h <;> simp at h
  · by_cases hfoc : (focusStats env).2.2 = 0
    · rw [tick_waitingEEG_eq env gs hover hfoc]
      exact ⟨rfl, rfl, rfl, rfl, rfl, rfl, rfl⟩
    · cases hgy : env.gyroY.getLast? with
      | none =>
        rw [tick_gyroNone env gs hover hfoc (Or.inl hgy)]
        exact ⟨rfl, rfl, rfl, rfl, rfl, rfl, rfl⟩
      | some gy =>
        cases hgz : env.gyroZ.getLast? with
        | none =>
          rw [tick_gyroNone env gs hover hfoc (Or.inr hgz)]
          exact ⟨rfl, rfl, rfl, rfl, rfl, rfl, rfl⟩
        | some gz =>
          rw [tick_playing_eq env gs gy gz hover hfoc hgy hgz] at h
          by_cases hfired : (blinkOf env gs).1 = true ∨ gs.shot_timer - TICK_DT ≤ 0
          · rw [if_pos hfired] at h
            rcases h with h | h <;> simp at h
          · rw [if_neg hfired] at h
            rcases h with h | h <;> simp at h

theorem waiting_tick_no_mutation_witness :
    ((tick envEmpty gs0).status = .waitingEEG ∨
      (tick envEmpty gs0).status = .waitingGyro) ∧
    ((tick envEmpty gs0).state.score = gs0.score ∧
     (tick envEmpty gs0).state.shot_number = gs0.shot_number ∧
     (tick envEmpty gs0).state.crosshair_pos = gs0.crosshair_pos ∧
     (tick envEmpty gs0).state.target_pos = gs0.target_pos ∧
     (tick envEmpty gs0).state.shot_timer = gs0.shot_timer - TICK_DT ∧
     (tick envEmpty gs0).state.last_blink_time = (blinkOf envEmpty gs0).2 ∧
     (tick envEmpty gs0).render = none) :=
  have hst : (tick envEmpty gs0).status = .waitingEEG := by
    rw [tick_waitingEEG_eq envEmpty gs0 (by decide) rfl]
  ⟨Or.inl hst, waiting_tick_no_mutation envEmpty gs0 (Or.inl hst)⟩

/-! ### Shot number state machine (C2) -/

/-- C2: across every sequence of game ticks after a start/reset,
`shot_number` is non-decreasing and never exceeds `MAX_SHOTS`; a tick on a
state with `shot_number = MAX_SHOTS` only reports the final score and
mutates nothing (and hence every whole run from such a state is frozen). -/
theorem shot_number_invariants :
    (∀ (env : TickEnv) (gs : GameState),
        gs.shot_number ≤ (tick env gs).state.shot_number) ∧
    (∀ (env : TickEnv) (gs : GameState), gs.shot_number ≤ MAX_SHOTS →
        (tick env gs).state.shot_number ≤ MAX_SHOTS) ∧
    (∀ (env : TickEnv) (gs : GameState), gs.shot_number = MAX_SHOTS →
        tick env gs = ⟨.gameOver gs.score, gs, none⟩) ∧
    (∀ (envs : List TickEnv) (gs : GameState), gs.shot_number = MAX_SHOTS →
        runTicks envs gs = gs) ∧
    (∀ (envs : List TickEnv) (t : ℚ),
        (runTicks envs (initGameState t)).shot_number ≤ MAX_SHOTS) := by
  have hbound : ∀ (env : TickEnv) (gs : GameState), gs.shot_number ≤ MAX_SHOTS →
      (tick env gs).state.shot_number ≤ MAX_SHOTS := by
    intro env gs hle
    rcases tick_shot_number_step env gs with h | ⟨h, hlt⟩ <;> omega
  have hfreeze : ∀ (env : TickEnv) (gs : GameState), gs.shot_number = MAX_SHOTS →
      tick env gs = ⟨.gameOver gs.score, gs, none⟩ := by
    intro env gs he
    exact tick_gameOver env gs (le_of_eq he.symm)
  have hrunbound : ∀ (envs : List TickEnv) (gs : GameState),
      gs.shot_number ≤ MAX_SHOTS → (runTicks envs gs).shot_number ≤ MAX_SHOTS := by
    intro envs
    induction envs with
    | nil => intro gs h; exact h
    | cons e es ih =>
      intro gs h
      show (runTicks es (tick e gs).state).shot_number ≤ MAX_SHOTS
      exact ih _ (hbound e gs h)
  refine ⟨?_, hbound, hfreeze, ?_, ?_⟩
  · intro env gs
    rcases tick_shot_number_step env gs with h | ⟨h, _⟩ <;> omega
  · intro envs
    induction envs with
    | nil => intro gs _; rfl
    | cons e es ih =>
      intro gs he
      show runTicks es (tick e gs).state = gs
      rw [hfreeze e gs he]
      exact ih gs he
  · intro envs t
    have h0 : (initGameState t).shot_number = 0 := rfl
    exact hrunbound envs _ (by rw [h0]; exact Nat.zero_le _)

theorem shot_number_invariants_witness :
    gsDone.shot_number = MAX_SHOTS ∧
    gs0.shot_number ≤ MAX_SHOTS ∧
    tick envEmpty gsDone = ⟨.gameOver gsDone.score, gsDone, none⟩ ∧
    (tick envEmpty gs0).state.shot_number ≤ MAX_SHOTS ∧
    runTicks [envEmpty, envEmpty] gsDone = gsDone :=
  ⟨rfl, by decide,
   shot_number_invariants.2.2.1 envEmpty gsDone rfl,
   shot_number_invariants.2.1 envEmpty gs0 (by decide),
   shot_number_invariants.2.2.2.1 [envEmpty, envEmpty] gsDone rfl⟩

/-! ### Scoring (C5) -/

theorem ringPoints_cases (d : ℚ) :
    (d ≤ 625 → ringPoints d = 100) ∧
    (625 < d → d ≤ 2500 → ringPoints d = 50) ∧
    (2500 < d → d ≤ 5625 → ringPoints d = 20) ∧
    (5625 < d → ringPoints d = 0) := by
  refine ⟨fun h => ?_, fun h1 h2 => ?_, fun h1 h2 => ?_, fun h => ?_⟩
  · unfold ringPoints
    rw [if_pos (by norm_num; linarith)]
  · unfold ringPoints
    rw [if_neg (by norm_num; linarith), if_pos (by norm_num; linarith)]
  · unfold ringPoints
    rw [if_neg (by norm_num; linarith), if_neg (by norm_num; linarith),
      if_pos (by norm_num; linarith)]
  · unfold ringPoints
    rw [if_neg (by norm_num; linarith), if_neg (by norm_num; linarith),
      if_neg (by norm_num; linarith)]

/-- C5: on a fired shot, the score grows exactly by the blink-gated ring
points (a timer-expiry shot adds zero), and the ring points are determined by
the Euclidean distance from the clipped crosshair to the target center:
100 within 25, 50 within 50, 20 within 75, else 0. -/
theorem shot_scoring (env : TickEnv) (gs : GameState) (gy gz : ℚ)
    (h1 : ¬ MAX_SHOTS ≤ gs.shot_number) (h2 : ¬ (focusStats env).2.2 = 0)
    (hgy : env.gyroY.getLast? = some gy) (hgz : env.gyroZ.getLast? = some gz)
    (hfired : (blinkOf env gs).1 = true ∨ gs.shot_timer - TICK_DT ≤ 0) :
    ((tick env gs).state.score =
      gs.score +
        (if (blinkOf env gs).1 = true then
          ringPoints (distSq (clip470 (smoothPos env gs gy (-gz)))
            (targetCenter gs))
        else 0)) ∧
    ((blinkOf env gs).1 = false → (tick env gs).state.score = gs.score) ∧
    (∀ d : ℚ,
      (Real.sqrt (d : ℝ) ≤ 25 → ringPoints d = 100) ∧
      (25 < Real.sqrt (d : ℝ) → Real.sqrt (d : ℝ) ≤ 50 → ringPoints d = 50) ∧
      (50 < Real.sqrt (d : ℝ) → Real.sqrt (d : ℝ) ≤ 75 → ringPoints d = 20) ∧
      (75 < Real.sqrt (d : ℝ) → ringPoints d = 0)) := by
  refine ⟨?_, ?_, ?_⟩
  · rw [tick_playing_eq env gs gy gz h1 h2 hgy hgz, if_pos hfired]
  · intro hb
    rw [tick_playing_eq env gs gy gz h1 h2 hgy hgz, if_pos hfired]
    show gs.score + _ = gs.score
    rw [if_neg (by rw [hb]; exact Bool.false_ne_true), Nat.add_zero]
  · intro d
    have cast_le : ∀ r : ℚ, d ≤ r → (d : ℝ) ≤ (r : ℝ) := fun r h => by
      exact_mod_cast h
    have sqrt_ring : ∀ r : ℚ, 0 ≤ r →
        (Real.sqrt (d : ℝ) ≤ (r : ℝ) ↔ d ≤ r ^ 2) := by
      intro r hr
      rw [Real.sqrt_le_left (by exact_mod_cast hr)]
      constructor
      · intro h
        exact_mod_cast h
      · intro h
        exact_mod_cast h
    refine ⟨fun h => ?_, fun hlo hhi => ?_, fun hlo hhi => ?_, fun h => ?_⟩
    · have hq : d ≤ 625 := by
        have := (sqrt_ring 25 (by norm_num)).mp (by exact_mod_cast h)
        linarith [this]
      exact (ringPoints_cases d).1 hq
    · have hq1 : 625 < d := by
        by_contra hc
        push_neg at hc
        have := (sqrt_ring 25 (by norm_num)).mpr (by linarith)
        have h25 : ((25 : ℚ) : ℝ) = 25 := by norm_num
        rw [h25] at this
        linarith
      have hq2 : d ≤ 2500 := by
        have := (sqrt_ring 50 (by norm_num)).mp (by exact_mod_cast hhi)
        linarith [this]
      exact (ringPoints_cases d).2.1 hq1 hq2
    · have hq1 : 2500 < d := by
        by_contra hc
        push_neg at hc
        have := (sqrt_ring 50 (by norm_num)).mpr (by linarith)
        have h50 : ((50 : ℚ) : ℝ) = 50 := by norm_num
        rw [h50] at this
        linarith
      have hq2 : d ≤ 5625 := by
        have := (sqrt_ring 75 (by norm_num)).mp (by exact_mod_cast hhi)
        linarith [this]
      exact (ringPoints_cases d).2.2.1 hq1 hq2
    · have hq : 5625 < d := by
        by_contra hc
        push_neg at hc
        have := (sqrt_ring 75 (by norm_num)).mpr (by linarith)
        have h75 : ((75 : ℚ) : ℝ) = 75 := by norm_num
        rw [h75] at this
        linarith
      exact (ringPoints_cases d).2.2.2 hq

theorem shot_scoring_witness :
    (¬ MAX_SHOTS ≤ gs0.shot_number) ∧ (¬ (focusStats envBlink).2.2 = 0) ∧
    envBlink.gyroY.getLast? = some 0 ∧ envBlink.gyroZ.getLast? = some 0 ∧
    ((blinkOf envBlink gs0).1 = true ∨ gs0.shot_timer - TICK_DT ≤ 0) ∧
    (tick envBlink gs0).state.score =
      gs0.score +
        (if (blinkOf envBlink gs0).1 = true then
          ringPoints (distSq (clip470 (smoothPos envBlink gs0 0 (-0)))
            (targetCenter gs0))
        else 0) :=
  ⟨by decide, focus_envBlink_ne, rfl, rfl,
   Or.inl (by rw [blink_envBlink]),
   (shot_scoring envBlink gs0 0 0 (by decide) focus_envBlink_ne rfl rfl
       (Or.inl (by rw [blink_envBlink]))).1⟩

/-! ### Crosshair smoothing, clipping and persistence (C10) -/

theorem smoothFar : smoothPos envFar gs0 0 (-(-200)) = (635, 235) := by
  unfold smoothPos rawPos
  norm_num [envFar, gs0, initGameState]

theorem tick_envFar :
    tick envFar gs0 =
      ⟨.playing,
        ⟨gs0.score, gs0.target_pos, (blinkOf envFar gs0).2,
          gs0.shot_timer - TICK_DT, gs0.shot_number,
          smoothPos envFar gs0 0 (-(-200))⟩,
        some (clip470 (smoothPos envFar gs0 0 (-(-200))))⟩ := by
  rw [tick_playing_eq envFar gs0 0 (-200) (by decide) focus_envFar_ne rfl rfl]
  rw [if_neg]
  intro hc
  rcases hc with hb | ht
  · rw [blink_envFar] at hb
    simp at hb
  · have ht' : (10 : ℚ) - 250 / 1000 ≤ 0 := ht
    norm_num at ht'

/-- C10: on a playing tick the crosshair position persisted in the game state
for the next tick's smoothing is the UNCLIPPED smoothed value, while the
rendered crosshair and the scoring distance use the value clipped to
`[0, 470]²`; for some inputs the persisted value lies outside `[0, 470]²`. -/
theorem crosshair_unclipped (env : TickEnv) (gs : GameState) (gy gz : ℚ)
    (h1 : ¬ MAX_SHOTS ≤ gs.shot_number) (h2 : ¬ (focusStats env).2.2 = 0)
    (hgy : env.gyroY.getLast? = some gy) (hgz : env.gyroZ.getLast? = some gz) :
    ((tick env gs).state.crosshair_pos = smoothPos env gs gy (-gz)) ∧
    ((tick env gs).render = some (clip470 (smoothPos env gs gy (-gz)))) ∧
    ((blinkOf env gs).1 = true →
      (tick env gs).state.score =
        gs.score + ringPoints (distSq (clip470 (smoothPos env gs gy (-gz)))
          (targetCenter gs))) ∧
    (∃ (e : TickEnv) (g : GameState),
      (tick e g).status = .playing ∧
      ¬ (0 ≤ (tick e g).state.crosshair_pos.1 ∧
        (tick e g).state.crosshair_pos.1 ≤ 470 ∧
        0 ≤ (tick e g).state.crosshair_pos.2 ∧
        (tick e g).state.crosshair_pos.2 ≤ 470)) := by
  refine ⟨?_, ?_, ?_, ?_⟩
  · rw [tick_playing_eq env gs gy gz h1 h2 hgy hgz]
    by_cases hfired : (blinkOf env gs).1 = true ∨ gs.shot_timer - TICK_DT ≤ 0
    · rw [if_pos hfired]
    · rw [if_neg hfired]
  · rw [tick_playing_eq env gs gy gz h1 h2 hgy hgz]
    by_cases hfired : (blinkOf env gs).1 = true ∨ gs.shot_timer - TICK_DT ≤ 0
    · rw [if_pos hfired]
    · rw [if_neg hfired]
  · intro hb
    rw [tick_playing_eq env gs gy gz h1 h2 hgy hgz, if_pos (Or.inl hb)]
    show gs.score + _ = _
    rw [if_pos hb]
  · refine ⟨envFar, gs0, by rw [tick_envFar], ?_⟩
    have hx : (tick envFar gs0).state.crosshair_pos.1 = 635 := by
      rw [tick_envFar]
      show (smoothPos envFar gs0 0 (-(-200))).1 = 635
      rw [smoothFar]
    intro hc
    rw [hx] at hc
    have h470 := hc.2.1
    norm_num at h470

theorem crosshair_unclipped_witness :
    (¬ MAX_SHOTS ≤ gs0.shot_number) ∧ (¬ (focusStats envFar).2.2 = 0) ∧
    envFar.gyroY.getLast? = some 0 ∧ envFar.gyroZ.getLast? = some (-200) ∧
    (tick envFar gs0).state.crosshair_pos = smoothPos envFar gs0 0 (-(-200)) :=
  ⟨by decide, focus_envFar_ne, rfl, rfl,
   (crosshair_unclipped envFar gs0 0 (-200) (by decide) focus_envFar_ne
       rfl rfl).1⟩

end MindBrawl
